import Mathlib

/-!
Shallow embedding of the design-context-server repository core:
the convention-based component discovery resolver (`RegistryService`,
src/registry/registry.service.ts) and the dynamic tool registration and
dispatch layer (`McpService`, src/mcp/mcp.service.ts).

JavaScript runtime values that can flow through tool arguments and results
are modelled by the JSON-like inductive `Value` (plus `Option Value`, where
`none` models the JavaScript `undefined`).  The Node.js filesystem API
surface used by the resolver (`existsSync`, `readdirSync`, `statSync`,
`readFileSync`) is modelled by the `FileSystem` structure; a `none` result
of `readdir`/`readFile` models a thrown filesystem error, which the source
catches.  String lower-casing is ASCII (`Char.toLower`), matching the
behaviour of JavaScript `toLowerCase` on the ASCII names the resolver
compares.
-/

namespace DesignContextServer

/-- JSON-like JavaScript value. `undefined` is modelled as `none` at
`Option Value`, never as a `Value`. -/
inductive Value where
  | vNull : Value
  | vBool : Bool → Value
  | vNum : Int → Value
  | vStr : String → Value
  | vArr : List Value → Value
  | vObj : List (String × Value) → Value

/-- JavaScript truthiness of a value (`!args` tests its negation).
Arrays and objects are always truthy, including empty ones. -/
def jsTruthy : Value → Bool
  | .vNull => false
  | .vBool b => b
  | .vNum n => n != 0
  | .vStr s => s != ""
  | .vArr _ => true
  | .vObj _ => true

/-- `typeof v === 'object'`: true for null, arrays and plain objects. -/
def typeofIsObject : Value → Bool
  | .vNull => true
  | .vArr _ => true
  | .vObj _ => true
  | _ => false

/-- `Object.keys(v)` for the values on which the source calls it:
field names for an object, index strings for an array, `[]` otherwise. -/
def jsKeys : Value → List String
  | .vObj fields => fields.map Prod.fst
  | .vArr xs => (List.range xs.length).map toString
  | _ => []

/-- `k in v`: property membership, as used on plain argument objects. -/
def hasProp (v : Value) (k : String) : Bool :=
  match v with
  | .vObj fields => fields.any (fun f => f.1 == k)
  | _ => false

/-- `v[k]` on a plain object: value of the first field named `k`. -/
def objLookup (v : Value) (k : String) : Option Value :=
  match v with
  | .vObj fields => (fields.find? (fun f => f.1 == k)).map Prod.snd
  | _ => none

/-- JavaScript object property assignment `o[k] = x` on the list-of-fields
model: replace the value of an existing key in place, else append. -/
def objSet (fields : List (String × Value)) (k : String) (x : Value) :
    List (String × Value) :=
  if fields.any (fun f => f.1 == k) then
    fields.map (fun f => if f.1 == k then (k, x) else f)
  else
    fields ++ [(k, x)]

/-- A conservative JSON serializer standing in for
`JSON.stringify(v, null, 2)`; the claims only depend on the result being a
function of the value, not on the concrete spacing. -/
def jsonStringify : Value → String
  | .vNull => "null"
  | .vBool true => "true"
  | .vBool false => "false"
  | .vNum n => toString n
  | .vStr s => "\x22" ++ s ++ "\x22"
  | .vArr xs =>
      "[" ++ String.intercalate "," (xs.attach.map (fun x => jsonStringify x.1)) ++ "]"
  | .vObj fields =>
      "\x7b" ++
        String.intercalate ","
          (fields.attach.map
            (fun f => "\x22" ++ f.1.1 ++ "\x22:" ++ jsonStringify f.1.2)) ++
      "\x7d"
decreasing_by
  · simp only [Value.vArr.sizeOf_spec]
    have h := List.sizeOf_lt_of_mem x.2
    omega
  · simp only [Value.vObj.sizeOf_spec]
    have h := List.sizeOf_lt_of_mem f.2
    have h2 : sizeOf f.1.2 < sizeOf f.1 := by
      obtain ⟨⟨k, v⟩, hm⟩ := f
      simp
    omega

/-- `l₁` occurs as a contiguous run inside `l₂` (executable). -/
def listContains (l₂ l₁ : List Char) : Bool :=
  match l₂ with
  | [] => l₁.isEmpty
  | _ :: t => List.isPrefixOf l₁ l₂ || listContains t l₁

/-- JavaScript `s.includes(sub)`: substring containment. -/
def strIncludes (s sub : String) : Bool :=
  listContains s.data sub.data

/-- JavaScript `s.toLowerCase()` on the ASCII names the resolver handles. -/
def strLower (s : String) : String :=
  String.mk (s.data.map Char.toLower)

/-- Index of the last `.` in a character list, if any. -/
def lastDotIdx (cs : List Char) : Option Nat :=
  ((cs.enum.filter (fun p => p.2 == '.')).map Prod.fst).getLast?

/-- Node `path.extname` on a bare file name: the suffix from the last dot,
empty when there is no dot or the only dot leads the name (dotfile). -/
def extnameOf (name : String) : String :=
  match lastDotIdx name.data with
  | none => ""
  | some 0 => ""
  | some i => String.mk (name.data.drop i)

/-- Node `path.basename(name, path.extname(name))` on a bare file name:
the name with its extension (as computed by `extnameOf`) removed. -/
def stemOf (name : String) : String :=
  match lastDotIdx name.data with
  | none => name
  | some 0 => name
  | some i => String.mk (name.data.take i)

/-- Node `path.join` of two segments, without normalization (the resolver
only joins clean relative segments). -/
def pathJoin (a b : String) : String := a ++ "/" ++ b

/-- `path.join` of a list of segments onto a root. -/
def pathJoinAll (root : String) (segs : List String) : String :=
  segs.foldl pathJoin root

/-- Kind of a directory entry, as reported by `fs.Dirent` / `fs.Stats`. -/
inductive EntryKind where
  | file : EntryKind
  | dir : EntryKind
  | other : EntryKind
deriving DecidableEq

/-- One entry of `fs.readdirSync` with the withFileTypes option. -/
structure DirEnt where
  name : String
  kind : EntryKind
deriving DecidableEq

/-- Point-in-time model of the Node filesystem API used by the resolver.
`readdir`/`readFile` return `none` when the underlying call would throw;
`stat` is total (the resolver only stats paths it has just listed). -/
structure FileSystem where
  existsSync : String → Bool
  readdir : String → Option (List DirEnt)
  stat : String → EntryKind
  readFile : String → Option String

/-- A discovered component (src/registry/dto/component.dto.ts as
constructed by `discoverComponents`): directory name, documentation file
paths, optional story (example) file paths. -/
structure Component where
  name : String
  markdownFilePaths : List String
  storyFilePaths : Option (List String)
deriving DecidableEq

/-- A registry (src/registry/dto/registry.dto.ts): `components` is an
optional field in the source interface. -/
structure Registry where
  name : String
  installCommand : String
  description : String
  useCases : List String
  components : Option (List Component)
deriving DecidableEq

/-- Component-layout configuration (src/registry/dto/registry.dto.ts,
`ComponentConfiguration`). -/
structure ComponentConfiguration where
  basePath : String
  componentDir : String
  componentSubDirs : List String
  componentFileExtensions : List String
  storiesDir : String
  storiesSubDirs : List String
  storiesFileExtensions : List String
deriving DecidableEq

/-- `RegistryService.getDirectories`: immediate child directories of a
path; a failed listing yields `[]`. -/
def getDirectories (fs : FileSystem) (dirPath : String) : List String :=
  match fs.readdir dirPath with
  | none => []
  | some entries =>
      (entries.filter (fun d => d.kind == EntryKind.dir)).map DirEnt.name

/-- `RegistryService.findMarkdownFiles`: immediate files of the component
directory whose exact extension is in the configured set. -/
def findMarkdownFiles (fs : FileSystem) (componentPath : String)
    (extensions : List String) : List String :=
  match fs.readdir componentPath with
  | none => []
  | some entries =>
      (entries.map DirEnt.name).filterMap (fun file =>
        let filePath := pathJoin componentPath file
        if fs.stat filePath = EntryKind.file ∧ extnameOf file ∈ extensions
        then some filePath else none)

/-- `RegistryService.findFilesInDirectory` (flat-folder tier): immediate
files whose base name without its extension case-insensitively contains
the component name and whose exact extension is in the configured set. -/
def findFilesInDirectory (fs : FileSystem) (dirPath componentName : String)
    (extensions : List String) : List String :=
  match fs.readdir dirPath with
  | none => []
  | some entries =>
      (entries.map DirEnt.name).filterMap (fun item =>
        let fullPath := pathJoin dirPath item
        if fs.stat fullPath = EntryKind.file ∧
            strIncludes (strLower (stemOf item)) (strLower componentName) ∧
            extnameOf item ∈ extensions
        then some fullPath else none)

/-- `RegistryService.findFilesInDirectoryRoot` (dedicated-folder tier):
immediate files whose name contains one of the configured extensions as a
substring. -/
def findFilesInDirectoryRoot (fs : FileSystem) (dirPath : String)
    (extensions : List String) : List String :=
  match fs.readdir dirPath with
  | none => []
  | some entries =>
      entries.filterMap (fun item =>
        if item.kind = EntryKind.file ∧
            extensions.any (fun ext => strIncludes item.name ext)
        then some (pathJoin dirPath item.name) else none)

/-- Body of the per-sub-directory loop of `RegistryService.findStoryFiles`:
skip a missing base path; use the dedicated component story directory when
it exists and is a directory, the flat base directory otherwise. -/
def storyFilesForSubDir (fs : FileSystem) (componentName : String)
    (config : ComponentConfiguration) (root storySubDir : String) :
    List String :=
  let storyBasePath :=
    pathJoinAll root [config.basePath, config.storiesDir, storySubDir]
  if ¬ fs.existsSync storyBasePath then []
  else
    let componentStoryPath := pathJoin storyBasePath componentName
    if fs.existsSync componentStoryPath ∧
        fs.stat componentStoryPath = EntryKind.dir then
      findFilesInDirectoryRoot fs componentStoryPath
        config.storiesFileExtensions
    else
      findFilesInDirectory fs storyBasePath componentName
        config.storiesFileExtensions

/-- `RegistryService.findStoryFiles`: accumulate the per-sub-directory
story files over the declared story sub-directories, in order. -/
def findStoryFiles (fs : FileSystem) (componentName : String)
    (config : ComponentConfiguration) (root : String) : List String :=
  config.storiesSubDirs.foldl
    (fun acc sd => acc ++ storyFilesForSubDir fs componentName config root sd)
    []

/-- Body of the per-sub-directory loop of
`RegistryService.discoverComponents`: each child directory of the sub-
directory is a candidate; it becomes a `Component` only when it yields at
least one documentation file. -/
def componentsInSubDir (fs : FileSystem) (config : ComponentConfiguration)
    (root subDir : String) : List Component :=
  let componentBasePath :=
    pathJoinAll root [config.basePath, config.componentDir, subDir]
  if ¬ fs.existsSync componentBasePath then []
  else
    (getDirectories fs componentBasePath).filterMap (fun componentFolder =>
      let componentPath := pathJoin componentBasePath componentFolder
      let markdownFilePaths :=
        findMarkdownFiles fs componentPath config.componentFileExtensions
      if markdownFilePaths.length = 0 then none
      else
        let storyFilePaths := findStoryFiles fs componentFolder config root
        some ⟨componentFolder, markdownFilePaths,
              if storyFilePaths.length > 0 then some storyFilePaths
              else none⟩)

/-- `RegistryService.discoverComponents`: concatenate the components
discovered under each declared component sub-directory, in order. -/
def discoverComponents (fs : FileSystem) (config : ComponentConfiguration)
    (root : String) : List Component :=
  config.componentSubDirs.foldl
    (fun acc sd => acc ++ componentsInSubDir fs config root sd) []

/-- `RegistryService.getRegistryByName`: first registry with the name. -/
def getRegistryByName (registries : List Registry) (name : String) :
    Option Registry :=
  registries.find? (fun registry => registry.name == name)

/-- `RegistryService.getComponentsByRegistryName`: `[]` when the registry
is absent or has no components field. -/
def getComponentsByRegistryName (registries : List Registry)
    (name : String) : List Component :=
  match getRegistryByName registries name with
  | none => []
  | some registry => registry.components.getD []

/-- `RegistryService.getComponentByName`: `none` when either the registry
or the component is absent. -/
def getComponentByName (registries : List Registry)
    (registryName componentName : String) : Option Component :=
  match getRegistryByName registries registryName with
  | none => none
  | some registry =>
      (registry.components.getD []).find?
        (fun component => component.name == componentName)

/-- `RegistryService.getFileContent`: empty string for a missing path or a
failed read, the file content otherwise. -/
def getFileContent (fs : FileSystem) (filePath : String) : String :=
  if ¬ fs.existsSync filePath then ""
  else (fs.readFile filePath).getD ""

/-- `mappedArgs` is the paramMap loop of `McpService.transformArgs`: build
a fresh object assigning, for each declared (external, target) pair in
order, the incoming value of the external key when present. -/
def mappedArgs (paramMap : List (String × String)) (args : Value) :
    List (String × Value) :=
  paramMap.foldl
    (fun acc p =>
      match objLookup args p.1 with
      | some v => objSet acc p.2 v
      | none => acc)
    []

/-- `McpService.transformArgs`. `none` models `undefined` on both sides. -/
def transformArgs (args : Option Value)
    (paramMap : Option (List (String × String))) : Option Value :=
  match args with
  | none => none
  | some v =>
    if ¬ jsTruthy v then none
    else if typeofIsObject v ∧ (jsKeys v).length = 0 then none
    else
      match paramMap with
      | none =>
        match v with
        | .vObj fields =>
          match fields with
          | [single] => some single.2
          | _ => some (.vObj fields)
        | _ => some v
      | some pm =>
        match mappedArgs pm v with
        | [single] => some single.2
        | t => some (.vObj t)

/-- The single-text-block response envelope every handler builds. -/
def textEnvelope (text : String) : Value :=
  .vObj [("content",
    .vArr [.vObj [("type", .vStr "text"), ("text", .vStr text)]])]

/-- `McpService.formatToolResult`: pass a truthy object carrying a
`content` property through unchanged, wrap anything else as one text
block holding its JSON serialization. -/
def formatToolResult (result : Value) : Value :=
  if jsTruthy result ∧ typeofIsObject result ∧ hasProp result "content"
  then result
  else textEnvelope (jsonStringify result)

/-- The error envelope of the dispatcher's catch branch. -/
def errorResponse (msg : String) : Value :=
  textEnvelope ("Error: " ++ msg)

/-- The per-tool callback registered by
`McpService.discoverAndRegisterTools`: transform the arguments, invoke the
target method (`Except.error` models a thrown exception carrying its
message), format a success, convert a fault into `errorResponse`. -/
def callToolHandler (method : Option Value → Except String Value)
    (paramMap : Option (List (String × String))) (args : Option Value) :
    Value :=
  match method (transformArgs args paramMap) with
  | .ok result => formatToolResult result
  | .error msg => errorResponse msg

/-- The `|| 'N/A'` fallback of the `get_registry` details template. -/
def orNA (s : String) : String := if s = "" then "N/A" else s

/-- The details template literal of the `get_registry` handler. -/
def registryDetails (registry : Registry) : String :=
  "\nName: " ++ registry.name ++
  "\nDescription: " ++ orNA registry.description ++
  "\nInstallation: " ++ orNA registry.installCommand ++
  "\nUse Cases: " ++ orNA (String.intercalate ", " registry.useCases) ++
  "\nComponents: " ++
    orNA (String.intercalate ", "
      ((registry.components.getD []).map Component.name)) ++
  "\n"

/-- The `get_registry` tool handler. -/
def getRegistryHandler (registries : List Registry) (name : String) :
    Value :=
  match getRegistryByName registries name with
  | none =>
      textEnvelope ("Registry \x27" ++ name ++ "\x27 not found")
  | some registry => textEnvelope (registryDetails registry)

/-- Not-found text shared by the docs and stories handlers. -/
def componentNotFoundText (registryName componentName : String) : String :=
  "Component \x27" ++ componentName ++ "\x27 not found in registry \x27" ++
    registryName ++ "\x27"

/-- Documentation text of the `get_component_docs` success branch. -/
def componentDocsText (fs : FileSystem) (componentName : String)
    (component : Component) : String :=
  "Documentation for " ++ componentName ++ ":\n\n" ++
    String.intercalate "\n---\n"
      (component.markdownFilePaths.map (getFileContent fs))

/-- The `get_component_docs` tool handler. -/
def getComponentDocsHandler (fs : FileSystem) (registries : List Registry)
    (registryName componentName : String) : Value :=
  match getComponentByName registries registryName componentName with
  | none => textEnvelope (componentNotFoundText registryName componentName)
  | some component =>
      if component.markdownFilePaths.length > 0 then
        textEnvelope (componentDocsText fs componentName component)
      else
        textEnvelope ("No documentation available for component \x27" ++
          componentName ++ "\x27")

/-- Stories text of the `get_component_stories` success branch. -/
def componentStoriesText (fs : FileSystem) (componentName : String)
    (storyFilePaths : List String) : String :=
  "Storybook stories for " ++ componentName ++ ":\n\n" ++
    String.intercalate "\n---\n" (storyFilePaths.map (getFileContent fs))

/-- The `get_component_stories` tool handler. -/
def getComponentStoriesHandler (fs : FileSystem)
    (registries : List Registry) (registryName componentName : String) :
    Value :=
  match getComponentByName registries registryName componentName with
  | none => textEnvelope (componentNotFoundText registryName componentName)
  | some component =>
      match component.storyFilePaths with
      | some paths =>
          if paths.length > 0 then
            textEnvelope (componentStoriesText fs componentName paths)
          else
            textEnvelope
              ("No Storybook stories available for component \x27" ++
                componentName ++ "\x27")
      | none =>
          textEnvelope
            ("No Storybook stories available for component \x27" ++
              componentName ++ "\x27")

/-! ## Concrete fixtures used by witnesses and counterexamples -/

/-- A filesystem holding one component `Button` with one `readme.md`. -/
def fsDemo : FileSystem :=
  ⟨fun p => p == "/r/c/s",
   fun p =>
     if p = "/r/c/s" then some [⟨"Button", EntryKind.dir⟩]
     else if p = "/r/c/s/Button" then some [⟨"readme.md", EntryKind.file⟩]
     else none,
   fun p => if p = "/r/c/s/Button/readme.md" then EntryKind.file
            else EntryKind.other,
   fun _ => none⟩

/-- A layout scanning `r/c/s` for components with `.md` documentation. -/
def cfgDemo : ComponentConfiguration :=
  ⟨"r", "c", ["s"], [".md"], "st", [], []⟩

/-- A filesystem on which every operation misses or fails. -/
def fsAllMissing : FileSystem :=
  ⟨fun _ => false, fun _ => none, fun _ => EntryKind.other, fun _ => none⟩

/-- A filesystem whose `stories` directory holds the single file `a.js`. -/
def fsStoriesAJs : FileSystem :=
  ⟨fun _ => false,
   fun p => if p = "stories" then some [⟨"a.js", EntryKind.file⟩] else none,
   fun p => if p = "stories/a.js" then EntryKind.file else EntryKind.other,
   fun _ => none⟩

/-- A component with one documentation file and no stories. -/
def componentDemo : Component :=
  ⟨"Button", ["/r/c/s/Button/readme.md"], none⟩

/-- A one-component registry holding `componentDemo`. -/
def registryDemo : Registry :=
  ⟨"Demo", "npm i demo", "demo registry", [], some [componentDemo]⟩

/-! ## Helper lemmas -/

theorem foldl_append_eq_flatMap {α β : Type} (f : α → List β)
    (l : List α) : ∀ acc : List β,
    l.foldl (fun a x => a ++ f x) acc = acc ++ l.flatMap f := by
  induction l with
  | nil => simp
  | cons x t ih =>
      intro acc
      rw [List.foldl_cons, ih, List.flatMap_cons, List.append_assoc]

theorem data_head_append (s t : String) (c : Char)
    (h : s.data.head? = some c) : (s ++ t).data.head? = some c := by
  rw [String.data_append]
  cases hd : s.data with
  | nil => rw [hd] at h; cases h
  | cons a l => rw [hd] at h; cases h; rfl

theorem ne_of_data_head {a b : String} {ca cb : Char}
    (ha : a.data.head? = some ca) (hb : b.data.head? = some cb)
    (hne : ca ≠ cb) : a ≠ b := by
  intro h
  apply hne
  have := congrArg (fun s : String => s.data.head?) h
  simp only [ha, hb] at this
  exact Option.some.inj this

theorem pathJoin_right_inj {d a b : String}
    (h : pathJoin d a = pathJoin d b) : a = b := by
  unfold pathJoin at h
  have hd := congrArg String.data h
  rw [String.data_append, String.data_append, String.data_append,
    String.data_append] at hd
  exact String.ext (List.append_cancel_left hd)

theorem mem_objSet {fields : List (String × Value)} {k : String}
    {x : Value} {p : String × Value} (h : p ∈ objSet fields k x) :
    p ∈ fields ∨ p = (k, x) := by
  unfold objSet at h
  split at h
  · rw [List.mem_map] at h
    obtain ⟨q, hq, he⟩ := h
    by_cases hk : q.1 == k
    · rw [if_pos hk] at he
      exact Or.inr he.symm
    · rw [if_neg hk] at he
      exact Or.inl (he ▸ hq)
  · rw [List.mem_append] at h
    rcases h with h | h
    · exact Or.inl h
    · simp only [List.mem_singleton] at h
      exact Or.inr h

theorem mem_mappedArgs_foldl (v : Value) :
    ∀ (pm : List (String × String)) (acc : List (String × Value))
      (p : String × Value),
      p ∈ pm.foldl
        (fun acc q =>
          match objLookup v q.1 with
          | some w => objSet acc q.2 w
          | none => acc) acc →
      p ∈ acc ∨ ∃ mcp, (mcp, p.1) ∈ pm ∧ objLookup v mcp = some p.2 := by
  intro pm
  induction pm with
  | nil => intro acc p h; exact Or.inl h
  | cons q t ih =>
      intro acc p h
      rw [List.foldl_cons] at h
      cases hl : objLookup v q.1 with
      | none =>
          rw [hl] at h
          rcases ih acc p h with h1 | ⟨mcp, hm, ho⟩
          · exact Or.inl h1
          · exact Or.inr ⟨mcp, List.mem_cons_of_mem _ hm, ho⟩
      | some w =>
          rw [hl] at h
          rcases ih (objSet acc q.2 w) p h with h1 | ⟨mcp, hm, ho⟩
          · rcases mem_objSet h1 with h2 | h2
            · exact Or.inl h2
            · refine Or.inr ⟨q.1, ?_, ?_⟩
              · rw [h2]
                exact List.mem_cons_self q t
              · rw [h2, hl]
          · exact Or.inr ⟨mcp, List.mem_cons_of_mem _ hm, ho⟩

theorem mem_keys_objSet_self (fields : List (String × Value)) (k : String)
    (x : Value) : k ∈ (objSet fields k x).map Prod.fst := by
  unfold objSet
  split
  · next hany =>
      rw [List.any_eq_true] at hany
      obtain ⟨q, hq, hqk⟩ := hany
      rw [List.mem_map]
      exact ⟨(k, x), List.mem_map.mpr ⟨q, hq, by rw [if_pos hqk]⟩, rfl⟩
  · rw [List.mem_map]
    exact ⟨(k, x), List.mem_append_right _ (List.mem_singleton.mpr rfl),
      rfl⟩

theorem mem_keys_objSet_mono {fields : List (String × Value)}
    {kp : String} (h : kp ∈ fields.map Prod.fst) (k : String) (x : Value) :
    kp ∈ (objSet fields k x).map Prod.fst := by
  unfold objSet
  split
  · rw [List.mem_map] at h ⊢
    obtain ⟨q, hq, hqe⟩ := h
    by_cases hqk : q.1 == k
    · refine ⟨(k, x), List.mem_map.mpr ⟨q, hq, by rw [if_pos hqk]⟩, ?_⟩
      have hk : q.1 = k := by simpa using hqk
      rw [← hqe, hk]
    · exact ⟨q, List.mem_map.mpr ⟨q, hq, by rw [if_neg hqk]⟩, hqe⟩
  · rw [List.mem_map] at h ⊢
    obtain ⟨q, hq, hqe⟩ := h
    exact ⟨q, List.mem_append_left _ hq, hqe⟩

theorem mem_keys_mapped_foldl_mono (v : Value) :
    ∀ (m : List (String × String)) (acc : List (String × Value))
      (kp : String), kp ∈ acc.map Prod.fst →
      kp ∈ (m.foldl
        (fun acc q =>
          match objLookup v q.1 with
          | some w => objSet acc q.2 w
          | none => acc) acc).map Prod.fst := by
  intro m
  induction m with
  | nil => intro acc kp h; exact h
  | cons a t ih =>
      intro acc kp h
      rw [List.foldl_cons]
      cases hl : objLookup v a.1 with
      | none => exact ih acc kp h
      | some w => exact ih _ kp (mem_keys_objSet_mono h a.2 w)

theorem mapped_foldl_present_key (v : Value) :
    ∀ (m : List (String × String)) (acc : List (String × Value))
      (q : String × String), q ∈ m →
      ∀ w, objLookup v q.1 = some w →
      q.2 ∈ (m.foldl
        (fun acc q =>
          match objLookup v q.1 with
          | some w => objSet acc q.2 w
          | none => acc) acc).map Prod.fst := by
  intro m
  induction m with
  | nil => intro acc q hq; cases hq
  | cons a t ih =>
      intro acc q hq w hw
      rw [List.foldl_cons]
      rcases List.mem_cons.mp hq with rfl | hqt
      · rw [hw]
        exact mem_keys_mapped_foldl_mono v t _ q.2
          (mem_keys_objSet_self acc q.2 w)
      · cases hl : objLookup v a.1 with
        | none => exact ih acc q hqt w hw
        | some w2 => exact ih _ q hqt w hw

theorem objLookup_mem {fields : List (String × Value)} {k : String}
    {w : Value} (h : objLookup (.vObj fields) k = some w) :
    (k, w) ∈ fields := by
  have h2 : (fields.find? (fun f => f.1 == k)).map Prod.snd = some w := h
  cases hf : fields.find? (fun f => f.1 == k) with
  | none => rw [hf] at h2; cases h2
  | some e =>
      rw [hf] at h2
      have he : e.2 = w := Option.some.inj h2
      have hm := List.mem_of_find?_eq_some hf
      have hp : e.1 = k := by simpa using List.find?_some hf
      have : e = (k, w) := by
        rw [← hp, ← he]
      exact this ▸ hm

/-! ## C1: documentation presence is the admission gate -/

/-- C1: every `Component` materialized by `discoverComponents` has a
non-empty documentation-path list; a candidate directory with zero
matching documentation files never appears in the output. -/
theorem discover_components_admission_gate
    (fs : FileSystem) (config : ComponentConfiguration) (root : String)
    (c : Component) (hc : c ∈ discoverComponents fs config root) :
    c.markdownFilePaths ≠ [] := by
  rw [discoverComponents,
    foldl_append_eq_flatMap (componentsInSubDir fs config root)
      config.componentSubDirs [], List.nil_append] at hc
  rw [List.mem_flatMap] at hc
  obtain ⟨sd, _, hc⟩ := hc
  simp only [componentsInSubDir] at hc
  split at hc
  · cases hc
  · rw [List.mem_filterMap] at hc
    obtain ⟨folder, _, heq⟩ := hc
    split at heq
    · cases heq
    · next hlen =>
        cases heq
        simpa [List.length_eq_zero] using hlen

/-- Witness for C1 at a concrete one-component filesystem. -/
theorem discover_components_admission_gate_witness :
    (⟨"Button", ["/r/c/s/Button/readme.md"], none⟩ : Component) ∈
      discoverComponents fsDemo cfgDemo "" ∧
    (⟨"Button", ["/r/c/s/Button/readme.md"], none⟩ :
      Component).markdownFilePaths ≠ [] :=
  ⟨by decide,
   discover_components_admission_gate fsDemo cfgDemo "" _ (by decide)⟩

/-! ## C9: filesystem and catalog misses yield empty values -/

/-- C9: `getFileContent` returns `""` when the path does not exist or the
read fails, and `getComponentsByRegistryName` returns `[]` when the
registry is absent; neither operation can fail. -/
theorem miss_yields_empty_values
    (fs : FileSystem) (p : String) (registries : List Registry)
    (name : String) :
    ((fs.existsSync p = false ∨ fs.readFile p = none) →
      getFileContent fs p = "") ∧
    (getRegistryByName registries name = none →
      getComponentsByRegistryName registries name = []) := by
  constructor
  · intro h
    unfold getFileContent
    rcases h with h | h
    · rw [if_pos (by simp [h])]
    · split
      · rfl
      · rw [h]; rfl
  · intro h
    unfold getComponentsByRegistryName
    rw [h]

/-- Witness for C9 at a filesystem with no entries and an empty catalog. -/
theorem miss_yields_empty_values_witness :
    getFileContent fsAllMissing "/nowhere" = "" ∧
    getComponentsByRegistryName [] "Demo" = [] :=
  ⟨(miss_yields_empty_values fsAllMissing "/nowhere" [] "Demo").1
      (Or.inl rfl),
   (miss_yields_empty_values fsAllMissing "/nowhere" [] "Demo").2 rfl⟩

/-! ## C10: array arguments without a parameter map -/

/-- C10: with no parameter map an empty array argument is transformed to
`undefined` (it has zero keys) while every non-empty array, a one-element
array included, is passed through unchanged, never unwrapped. -/
theorem transform_args_array_passthrough
    (pm : Option (List (String × String))) (xs : List Value) :
    transformArgs (some (.vArr [])) pm = none ∧
    (xs ≠ [] → transformArgs (some (.vArr xs)) none = some (.vArr xs)) := by
  constructor
  · rfl
  · intro h
    simp only [transformArgs, jsTruthy, typeofIsObject, jsKeys]
    rw [if_neg (by simp), if_neg (by simp [h])]

/-- Witness for C10: a one-element array is passed through unchanged. -/
theorem transform_args_array_passthrough_witness :
    transformArgs (some (.vArr [.vNum 7])) none = some (.vArr [.vNum 7]) :=
  (transform_args_array_passthrough none [.vNum 7]).2 (by simp)

/-! ## C3: invocation faults become structured error responses -/

/-- C3: whenever the target method throws, the dispatcher callback
returns the structured error envelope whose single text block carries
`Error: ` followed by the exception's message; the callback is a total
function, so no fault propagates. -/
theorem tool_fault_normalized
    (method : Option Value → Except String Value)
    (pm : Option (List (String × String))) (args : Option Value)
    (msg : String)
    (h : method (transformArgs args pm) = Except.error msg) :
    callToolHandler method pm args = errorResponse msg ∧
    callToolHandler method pm args =
      textEnvelope ("Error: " ++ msg) := by
  unfold callToolHandler
  rw [h]
  exact ⟨rfl, rfl⟩

/-- Witness for C3 with a method that always throws `boom`. -/
theorem tool_fault_normalized_witness :
    callToolHandler (fun _ => Except.error "boom") none none =
      textEnvelope ("Error: " ++ "boom") :=
  (tool_fault_normalized (fun _ => Except.error "boom") none none "boom"
    rfl).2

/-! ## C7: unknown names yield not-found messages -/

/-- C7: on a registry name absent from the catalog `get_registry` returns
its not-found text, and on a registry/component pair that resolves to no
component both `get_component_docs` and `get_component_stories` return
the shared not-found text; all three handlers are total functions. -/
theorem unknown_names_not_found
    (fs : FileSystem) (registries : List Registry)
    (registryName componentName : String) :
    (getRegistryByName registries registryName = none →
      getRegistryHandler registries registryName =
        textEnvelope
          ("Registry \x27" ++ registryName ++ "\x27 not found")) ∧
    (getComponentByName registries registryName componentName = none →
      getComponentDocsHandler fs registries registryName componentName =
        textEnvelope (componentNotFoundText registryName componentName) ∧
      getComponentStoriesHandler fs registries registryName
          componentName =
        textEnvelope (componentNotFoundText registryName componentName))
    := by
  constructor
  · intro h
    unfold getRegistryHandler
    rw [h]
  · intro h
    unfold getComponentDocsHandler getComponentStoriesHandler
    rw [h]
    exact ⟨rfl, rfl⟩

/-- Witness for C7 on the empty catalog. -/
theorem unknown_names_not_found_witness :
    getRegistryHandler [] "Ghost" =
      textEnvelope ("Registry \x27" ++ "Ghost" ++ "\x27 not found") ∧
    getComponentDocsHandler fsAllMissing [] "Ghost" "Button" =
      textEnvelope (componentNotFoundText "Ghost" "Button") :=
  ⟨(unknown_names_not_found fsAllMissing [] "Ghost" "Button").1 rfl,
   ((unknown_names_not_found fsAllMissing [] "Ghost" "Button").2 rfl).1⟩

/-! ## C2: argument-transformation precedence -/

/-- C2: `transformArgs` follows the spec's precedence on object
arguments: missing arguments or a zero-key object give `undefined`;
without a parameter map a one-key object is unwrapped and a several-key
object passes unchanged; with a parameter map a fresh object is built
from exactly the mapped keys present in the input (absent keys omitted)
and is unwrapped when it has exactly one key. -/
theorem transform_args_precedence
    (pm : Option (List (String × String))) :
    transformArgs none pm = none ∧
    transformArgs (some (.vObj [])) pm = none ∧
    (∀ k v, transformArgs (some (.vObj [(k, v)])) none = some v) ∧
    (∀ fields : List (String × Value), 1 < fields.length →
      transformArgs (some (.vObj fields)) none = some (.vObj fields)) ∧
    (∀ (m : List (String × String)) (fields : List (String × Value)),
      fields ≠ [] →
      transformArgs (some (.vObj fields)) (some m) =
        (match mappedArgs m (.vObj fields) with
         | [single] => some single.2
         | t => some (.vObj t))) ∧
    (∀ (m : List (String × String)) (fields : List (String × Value))
       (p : String × Value), p ∈ mappedArgs m (.vObj fields) →
      ∃ mcp, (mcp, p.1) ∈ m ∧ (mcp, p.2) ∈ fields) ∧
    (∀ (m : List (String × String)) (fields : List (String × Value))
       (q : String × String), q ∈ m →
      ∀ w, objLookup (.vObj fields) q.1 = some w →
      q.2 ∈ (mappedArgs m (.vObj fields)).map Prod.fst) := by
  refine ⟨rfl, rfl, fun k v => rfl, ?_, ?_, ?_, ?_⟩
  · intro fields h
    match fields, h with
    | a :: b :: t, _ => rfl
  · intro m fields h
    match fields, h with
    | a :: t, _ => rfl
  · intro m fields p h
    rcases mem_mappedArgs_foldl (.vObj fields) m [] p h with h1 | ⟨mcp, hm, ho⟩
    · cases h1
    · exact ⟨mcp, hm, objLookup_mem ho⟩
  · intro m fields q hq w hw
    exact mapped_foldl_present_key (.vObj fields) m [] q hq w hw

/-- Witness for C2: parameter map with a single mapped key present,
value unwrapped after mapping. -/
theorem transform_args_precedence_witness :
    transformArgs (some (.vObj [("ext", .vNum 5)]))
      (some [("ext", "internal")]) = some (.vNum 5) := by
  have h :=
    (transform_args_precedence (some [("ext", "internal")])).2.2.2.2.1
      [("ext", "internal")] [("ext", .vNum 5)] (by simp)
  exact h

/-! ## C4: flat-folder example matching -/

/-- C4 counterexample: in the flat tier the file `a.js` under `stories`
case-insensitively contains the component name `js` in its full name and
carries a configured extension, yet `findFilesInDirectory` does not
collect it, because the source matches the component name against the
base name with its extension removed (`a`), not the full file name. -/
theorem flat_tier_name_match_counterexample :
    fsStoriesAJs.readdir "stories" = some [⟨"a.js", EntryKind.file⟩] ∧
    fsStoriesAJs.stat (pathJoin "stories" "a.js") = EntryKind.file ∧
    strIncludes (strLower "a.js") (strLower "js") = true ∧
    extnameOf "a.js" ∈ [".js"] ∧
    findFilesInDirectory fsStoriesAJs "stories" "js" [".js"] = [] := by
  refine ⟨by decide, by decide, by decide, by decide, by decide⟩

/-- C4 as amended: a file of the examples directory is collected by the
flat tier iff it stats as a file, its base name **with the extension
removed** case-insensitively contains the component name, and its exact
extension is in the configured set. -/
theorem flat_tier_membership
    (fs : FileSystem) (dirPath componentName : String)
    (exts : List String) (entries : List DirEnt) (item : String)
    (h : fs.readdir dirPath = some entries) :
    pathJoin dirPath item ∈
        findFilesInDirectory fs dirPath componentName exts ↔
      item ∈ entries.map DirEnt.name ∧
      fs.stat (pathJoin dirPath item) = EntryKind.file ∧
      strIncludes (strLower (stemOf item)) (strLower componentName) =
        true ∧
      extnameOf item ∈ exts := by
  unfold findFilesInDirectory
  rw [h]
  constructor
  · intro hm
    rw [List.mem_filterMap] at hm
    obtain ⟨it, hit, heq⟩ := hm
    dsimp only at heq
    split at heq
    · next hcond =>
        have hi : it = item := pathJoin_right_inj (Option.some.inj heq)
        rw [hi] at hit hcond
        exact ⟨hit, hcond.1, hcond.2.1, hcond.2.2⟩
    · cases heq
  · rintro ⟨h1, h2, h3, h4⟩
    rw [List.mem_filterMap]
    refine ⟨item, h1, ?_⟩
    rw [if_pos ⟨h2, h3, h4⟩]

/-- Witness for C4's amended statement: `a.js` is collected for
component name `a`. -/
theorem flat_tier_membership_witness :
    pathJoin "stories" "a.js" ∈
      findFilesInDirectory fsStoriesAJs "stories" "a" [".js"] :=
  (flat_tier_membership fsStoriesAJs "stories" "a" [".js"]
      [⟨"a.js", EntryKind.file⟩] "a.js" rfl).mpr
    ⟨by decide, by decide, by decide, by decide⟩

/-! ## C5: result normalization -/

/-- C5: a truthy value carrying a `content` property (necessarily a
non-null object in the model) passes through `formatToolResult`
unchanged; every other value — object without `content`, array, string,
or other primitive — is wrapped into the single-text-block envelope
holding its JSON serialization. -/
theorem format_tool_result_envelope (r : Value) :
    (hasProp r "content" = true → formatToolResult r = r) ∧
    (hasProp r "content" = false →
      formatToolResult r = textEnvelope (jsonStringify r)) ∧
    (hasProp r "content" = true ↔
      ∃ fields, r = .vObj fields ∧ "content" ∈ fields.map Prod.fst) := by
  refine ⟨?_, ?_, ?_⟩
  · intro h
    cases r with
    | vObj fields =>
        unfold formatToolResult
        rw [if_pos ⟨rfl, rfl, h⟩]
    | vNull => cases h
    | vBool b => cases h
    | vNum n => cases h
    | vStr s => cases h
    | vArr xs => cases h
  · intro h
    unfold formatToolResult
    rw [if_neg]
    rintro ⟨-, -, hc⟩
    rw [h] at hc
    cases hc
  · constructor
    · intro h
      cases r with
      | vObj fields =>
          refine ⟨fields, rfl, ?_⟩
          rw [List.mem_map]
          simp only [hasProp, List.any_eq_true] at h
          obtain ⟨f, hf, he⟩ := h
          exact ⟨f, hf, by simpa using he⟩
      | vNull => cases h
      | vBool b => cases h
      | vNum n => cases h
      | vStr s => cases h
      | vArr xs => cases h
    · rintro ⟨fields, rfl, hm⟩
      simp only [hasProp, List.any_eq_true]
      rw [List.mem_map] at hm
      obtain ⟨f, hf, he⟩ := hm
      exact ⟨f, hf, by simpa using he⟩

/-- Witness for C5: an envelope-shaped object passes through and a bare
string is wrapped. -/
theorem format_tool_result_envelope_witness :
    formatToolResult (.vObj [("content", .vArr [])]) =
      .vObj [("content", .vArr [])] ∧
    formatToolResult (.vStr "plain") =
      textEnvelope (jsonStringify (.vStr "plain")) :=
  ⟨(format_tool_result_envelope (.vObj [("content", .vArr [])])).1
      (by decide),
   (format_tool_result_envelope (.vStr "plain")).2.1 (by decide)⟩

/-! ## C6: docs tool dichotomy on a present component -/

/-- C6: on a registry/component pair present in the catalog the
`get_component_docs` handler returns the concatenated-documentation
envelope — whose text is never empty — exactly when the component's
documentation-path list is non-empty, returns the no-docs envelope
exactly when that list is empty, and the two envelopes are never
equal. -/
theorem get_component_docs_dichotomy
    (fs : FileSystem) (registries : List Registry)
    (registryName componentName : String) (component : Component)
    (h : getComponentByName registries registryName componentName =
      some component) :
    (component.markdownFilePaths ≠ [] →
      getComponentDocsHandler fs registries registryName componentName =
        textEnvelope (componentDocsText fs componentName component) ∧
      componentDocsText fs componentName component ≠ "") ∧
    (component.markdownFilePaths = [] →
      getComponentDocsHandler fs registries registryName componentName =
        textEnvelope ("No documentation available for component \x27" ++
          componentName ++ "\x27")) ∧
    textEnvelope (componentDocsText fs componentName component) ≠
      textEnvelope ("No documentation available for component \x27" ++
        componentName ++ "\x27") := by
  have hD : (componentDocsText fs componentName component).data.head? =
      some 'D' := by
    unfold componentDocsText
    exact data_head_append _ _ _
      (data_head_append _ _ _ (data_head_append _ _ _ rfl))
  have hN : ("No documentation available for component \x27" ++
      componentName ++ "\x27").data.head? = some 'N' := by
    exact data_head_append _ _ _ (data_head_append _ _ _ rfl)
  refine ⟨?_, ?_, ?_⟩
  · intro hne
    unfold getComponentDocsHandler
    rw [h]
    dsimp only
    rw [if_pos (by simpa [List.length_pos] using hne)]
    refine ⟨rfl, ?_⟩
    intro he
    rw [he] at hD
    cases hD
  · intro hemp
    unfold getComponentDocsHandler
    rw [h]
    dsimp only
    rw [if_neg (by simp [hemp])]
  · intro he
    have he2 : componentDocsText fs componentName component =
        "No documentation available for component \x27" ++
          componentName ++ "\x27" := by
      simpa [textEnvelope] using he
    exact ne_of_data_head hD hN (by decide) he2

/-- Witness for C6 on a catalog holding one documented component. -/
theorem get_component_docs_dichotomy_witness :
    getComponentDocsHandler fsAllMissing [registryDemo] "Demo" "Button" =
      textEnvelope (componentDocsText fsAllMissing "Button"
        componentDemo) :=
  ((get_component_docs_dichotomy fsAllMissing [registryDemo] "Demo"
      "Button" componentDemo (by decide)).1 (by decide)).1

/-! ## C8: two-tier example resolution per story sub-directory -/

/-- C8: `findStoryFiles` is the in-order concatenation of the
per-sub-directory results; a missing sub-directory contributes `[]`
without affecting the others; when `examplesRoot/subDir/componentName`
exists and is a directory only the dedicated-folder tier runs, otherwise
only the flat-folder tier runs. -/
theorem find_story_files_two_tier
    (fs : FileSystem) (componentName : String)
    (config : ComponentConfiguration) (root : String) :
    findStoryFiles fs componentName config root =
      config.storiesSubDirs.flatMap
        (storyFilesForSubDir fs componentName config root) ∧
    ∀ sd,
      (fs.existsSync
          (pathJoinAll root [config.basePath, config.storiesDir, sd]) =
            false →
        storyFilesForSubDir fs componentName config root sd = []) ∧
      (fs.existsSync
          (pathJoinAll root [config.basePath, config.storiesDir, sd]) =
            true →
        ((fs.existsSync
            (pathJoin
              (pathJoinAll root [config.basePath, config.storiesDir, sd])
              componentName) = true ∧
          fs.stat
            (pathJoin
              (pathJoinAll root [config.basePath, config.storiesDir, sd])
              componentName) = EntryKind.dir) →
          storyFilesForSubDir fs componentName config root sd =
            findFilesInDirectoryRoot fs
              (pathJoin
                (pathJoinAll root
                  [config.basePath, config.storiesDir, sd])
                componentName)
              config.storiesFileExtensions) ∧
        (¬ (fs.existsSync
              (pathJoin
                (pathJoinAll root
                  [config.basePath, config.storiesDir, sd])
                componentName) = true ∧
            fs.stat
              (pathJoin
                (pathJoinAll root
                  [config.basePath, config.storiesDir, sd])
                componentName) = EntryKind.dir) →
          storyFilesForSubDir fs componentName config root sd =
            findFilesInDirectory fs
              (pathJoinAll root [config.basePath, config.storiesDir, sd])
              componentName config.storiesFileExtensions)) := by
  refine ⟨?_, ?_⟩
  · rw [findStoryFiles,
      foldl_append_eq_flatMap
        (storyFilesForSubDir fs componentName config root)
        config.storiesSubDirs [], List.nil_append]
  · intro sd
    refine ⟨?_, ?_⟩
    · intro hmiss
      unfold storyFilesForSubDir
      rw [if_pos (by simp [hmiss])]
    · intro hhit
      refine ⟨?_, ?_⟩
      · intro hdir
        unfold storyFilesForSubDir
        rw [if_neg (by simp [hhit]), if_pos hdir]
      · intro hnodir
        unfold storyFilesForSubDir
        rw [if_neg (by simp [hhit]), if_neg hnodir]

/-- Witness for C8: a missing story sub-directory contributes no
results. -/
theorem find_story_files_two_tier_witness :
    storyFilesForSubDir fsAllMissing "Button" cfgDemo "" "s1" = [] :=
  ((find_story_files_two_tier fsAllMissing "Button" cfgDemo "").2
    "s1").1 rfl

end DesignContextServer
